import Mathlib

/-!
Shallow embedding of the car-search dialogue server (`src/server` of the
repository): text normalization and slot extraction (`message_handler.py`),
the in-memory repository and its search (`repository.py`), and the
conversation state machine (`conversation.py`), together with theorems
checking the specification's claims against this embedding.

Conventions:
* Python strings are Lean `String`s (lists of unicode scalar `Char`s).
* Python `float` values produced by price parsing are exact decimals,
  represented as `Dec` (an integer mantissa scaled by a power of ten);
  `float('inf')` is `PyFloat.inf`.
* The pandas data frame of cars is a `List Car` in its original row order.
* Python dicts with a fixed key set (`filters`, response dicts) are Lean
  structures whose `Option` fields model key presence.
-/

/-! ## Character-level text helpers (`MessageHandler.normalize_text`) -/

/-- The whitespace characters stripped by Python's `str.strip()`
(restricted to the ASCII whitespace relevant to this code base). -/
def isWS (c : Char) : Bool :=
  c == ' ' || c == '\t' || c == '\n' || c == '\r' || c == '\x0b' || c == '\x0c'

/-- Case-mapping table for Python's `str.lower()` on the alphabet used by
this repository: ASCII letters plus the Latin-1 accented capitals. -/
def pyLowerTable : List (Char × Char) :=
  [('A','a'),('B','b'),('C','c'),('D','d'),('E','e'),('F','f'),('G','g'),
   ('H','h'),('I','i'),('J','j'),('K','k'),('L','l'),('M','m'),('N','n'),
   ('O','o'),('P','p'),('Q','q'),('R','r'),('S','s'),('T','t'),('U','u'),
   ('V','v'),('W','w'),('X','x'),('Y','y'),('Z','z'),
   ('À','à'),('Á','á'),('Â','â'),('Ã','ã'),('Ä','ä'),('Å','å'),('Ç','ç'),
   ('È','è'),('É','é'),('Ê','ê'),('Ë','ë'),('Ì','ì'),('Í','í'),('Î','î'),
   ('Ï','ï'),('Ñ','ñ'),('Ò','ò'),('Ó','ó'),('Ô','ô'),('Õ','õ'),('Ö','ö'),
   ('Ø','ø'),('Ù','ù'),('Ú','ú'),('Û','û'),('Ü','ü'),('Ý','ý')]

/-- Transliteration table for `unidecode` on the alphabet used by this
repository: Latin-1 accented letters map to their ASCII base letter;
every other character is left unchanged. -/
def unidecodeTable : List (Char × Char) :=
  [('à','a'),('á','a'),('â','a'),('ã','a'),('ä','a'),('å','a'),('ç','c'),
   ('è','e'),('é','e'),('ê','e'),('ë','e'),('ì','i'),('í','i'),('î','i'),
   ('ï','i'),('ñ','n'),('ò','o'),('ó','o'),('ô','o'),('õ','o'),('ö','o'),
   ('ø','o'),('ù','u'),('ú','u'),('û','u'),('ü','u'),('ý','y'),('ÿ','y'),
   ('À','A'),('Á','A'),('Â','A'),('Ã','A'),('Ä','A'),('Å','A'),('Ç','C'),
   ('È','E'),('É','E'),('Ê','E'),('Ë','E'),('Ì','I'),('Í','I'),('Î','I'),
   ('Ï','I'),('Ñ','N'),('Ò','O'),('Ó','O'),('Ô','O'),('Õ','O'),('Ö','O'),
   ('Ø','O'),('Ù','U'),('Ú','U'),('Û','U'),('Ü','U'),('Ý','Y')]

/-- Look a character up in a replacement table, defaulting to the
character itself. -/
def lookupCh (t : List (Char × Char)) (c : Char) : Char :=
  match t.find? (fun p => p.1 == c) with
  | some p => p.2
  | none => c

/-- Python `str.lower()`, characterwise. -/
def pyLowerChar (c : Char) : Char := lookupCh pyLowerTable c

/-- `unidecode`, characterwise. -/
def unidecodeChar (c : Char) : Char := lookupCh unidecodeTable c

/-- Python `str.lower()` on a whole string (as a character list). -/
def pyLowerL (l : List Char) : List Char := l.map pyLowerChar

/-- Python `str.strip()` on a character list: drop whitespace from both
ends. -/
def pyStrip (l : List Char) : List Char :=
  (((l.dropWhile isWS).reverse.dropWhile isWS)).reverse

/-- `MessageHandler.normalize_text` on character lists:
`unidecode(text.lower().strip())`. -/
def normalizeChars (l : List Char) : List Char :=
  (pyStrip (l.map pyLowerChar)).map unidecodeChar

/-- `MessageHandler.normalize_text`: trim, lowercase, strip diacritics. -/
def normalize_text (s : String) : String := ⟨normalizeChars s.data⟩

/-- Python's substring test `sub in s` on character lists. -/
def pyIn (sub s : List Char) : Bool := s.tails.any (fun t => sub.isPrefixOf t)

/-- Python `str.lower` on a `String`. -/
def pyLowerS (s : String) : String := ⟨pyLowerL s.data⟩

/-! ## Exact decimal values standing in for Python floats -/

/-- An exact decimal number `num / 10 ^ exp`.  Every float this program
manufactures comes from parsing a decimal literal, so this representation
is exact; `Rat` is avoided because the claims are settled by kernel
evaluation. -/
structure Dec where
  num : Int
  exp : Nat
deriving DecidableEq, Repr

/-- The rational value of a `Dec`. -/
def Dec.toRat (d : Dec) : ℚ := (d.num : ℚ) / (10 : ℚ) ^ d.exp

/-- Comparison of two exact decimals (`a ≤ b`), by cross-multiplication. -/
def Dec.le (a b : Dec) : Bool := a.num * 10 ^ b.exp ≤ b.num * 10 ^ a.exp

/-- Multiplication of a decimal by 1000 (for the `"mil"` / `"k"` suffix). -/
def Dec.mul1000 (a : Dec) : Dec := ⟨a.num * 1000, a.exp⟩

/-- A Python float as used for the price bounds: either an exact decimal
or `float('inf')`. -/
inductive PyFloat where
  | val : Dec → PyFloat
  | inf : PyFloat
deriving DecidableEq, Repr

/-- `a <= b` on Python floats as used by the price-range filter. -/
def PyFloat.le : PyFloat → PyFloat → Bool
  | .val a, .val b => Dec.le a b
  | .val _, .inf => true
  | .inf, .val _ => false
  | .inf, .inf => true

/-! ## Parsing decimal literals (Python `float(...)`) -/

/-- Value of a digit string. -/
def digitsToNat (l : List Char) : Nat :=
  l.foldl (fun n c => 10 * n + (c.toNat - 48)) 0

/-- Python `float(s)` restricted to the shapes this program can feed it
(`digits`, `digits.digits`, `.digits`, `digits.`): `none` models a
`ValueError`. -/
def parseFloatDec (cs : List Char) : Option Dec :=
  if cs.all (fun c => c.isDigit || c == '.') then
    match cs.splitOn '.' with
    | [ip] => if ip.isEmpty then none else some ⟨(digitsToNat ip : Int), 0⟩
    | [ip, fp] =>
      if ip.isEmpty && fp.isEmpty then none
      else some ⟨(digitsToNat ip : Int) * 10 ^ fp.length + (digitsToNat fp : Int), fp.length⟩
    | _ => none
  else none

/-! ## A small backtracking regular-expression engine

`re.search` with `re.IGNORECASE`, specialised to the four fixed patterns of
`MessageHandler.extract_price_range`.  Alternation tries its left branch
first, `?` and `*` are greedy with backtracking, and the engine scans for
the leftmost start position — the semantics of Python's `re`. -/

/-- Regular expressions: literals (matched case-insensitively), single
character classes, sequencing, prioritised alternation, greedy option,
greedy Kleene star over a character class, and numbered capture groups. -/
inductive RE where
  | eps : RE
  | lit : List Char → RE
  | cls : (Char → Bool) → RE
  | seq : RE → RE → RE
  | alt : RE → RE → RE
  | opt : RE → RE
  | starCls : (Char → Bool) → RE
  | grp : Nat → RE → RE

/-- Case-insensitive literal match against a prefix of the input,
returning the rest of the input. -/
def litPrefix : List Char → List Char → Option (List Char)
  | [], inp => some inp
  | _ :: _, [] => none
  | p :: ps, c :: cs => if pyLowerChar p == pyLowerChar c then litPrefix ps cs else none

/-- Greedy star over a character class: consume as many matching
characters as possible, backtracking one at a time into `k`. -/
def starRun {α : Type} (p : Char → Bool) (caps : List (Nat × List Char))
    (k : List (Nat × List Char) → List Char → Option α) : List Char → Option α
  | [] => k caps []
  | c :: rest =>
    if p c then
      match starRun p caps k rest with
      | some r => some r
      | none => k caps (c :: rest)
    else k caps (c :: rest)

/-- The backtracking matcher, in continuation-passing style.  `caps`
accumulates numbered captures (most recent first). -/
def reM {α : Type} : RE → List (Nat × List Char) → List Char →
    (List (Nat × List Char) → List Char → Option α) → Option α
  | .eps, caps, inp, k => k caps inp
  | .lit s, caps, inp, k =>
    match litPrefix s inp with
    | some rest => k caps rest
    | none => none
  | .cls p, caps, inp, k =>
    match inp with
    | [] => none
    | c :: cs => if p c then k caps cs else none
  | .seq a b, caps, inp, k => reM a caps inp (fun caps2 rest => reM b caps2 rest k)
  | .alt a b, caps, inp, k =>
    match reM a caps inp k with
    | some r => some r
    | none => reM b caps inp k
  | .opt a, caps, inp, k =>
    match reM a caps inp k with
    | some r => some r
    | none => k caps inp
  | .starCls p, caps, inp, k => starRun p caps k inp
  | .grp i a, caps, inp, k =>
    reM a caps inp (fun caps2 rest =>
      k ((i, inp.take (inp.length - rest.length)) :: caps2) rest)

/-- `re.search`: try the pattern at each start position, leftmost first,
and return the captures of the first match. -/
def reSearch (r : RE) : List Char → Option (List (Nat × List Char))
  | [] => reM r [] [] (fun caps _ => some caps)
  | c :: rest =>
    match reM r [] (c :: rest) (fun caps _ => some caps) with
    | some caps => some caps
    | none => reSearch r rest

/-- Look up capture group `i` of a match. -/
def capGroup (caps : List (Nat × List Char)) (i : Nat) : Option (List Char) :=
  (caps.find? (fun p => p.1 == i)).map (fun p => p.2)

/-- `\d` (ASCII digits, as used by these patterns). -/
def digitCls (c : Char) : Bool := c.isDigit

/-- `\s` (whitespace). -/
def wsCls (c : Char) : Bool := isWS c

/-- `[.,]`. -/
def sepCls (c : Char) : Bool := c == '.' || c == ','

/-- `\d+[.,]?\d*` — the numeric literal shape shared by all four
patterns. -/
def numRE : RE :=
  .seq (.cls digitCls) (.seq (.starCls digitCls) (.seq (.opt (.cls sepCls)) (.starCls digitCls)))

/-- `(?:R\$\s*)?`. -/
def moneyPrefixRE : RE := .opt (.seq (.lit ['r', '$']) (.starCls wsCls))

/-- `(?:entre|de)\s*(?:R\$\s*)?(\d+[.,]?\d*)\s*(?:a|até|e)\s*(?:R\$\s*)?(\d+[.,]?\d*)`. -/
def pattern1 : RE :=
  .seq (.alt (.lit "entre".data) (.lit "de".data))
    (.seq (.starCls wsCls)
      (.seq moneyPrefixRE
        (.seq (.grp 1 numRE)
          (.seq (.starCls wsCls)
            (.seq (.alt (.lit "a".data) (.alt (.lit "até".data) (.lit "e".data)))
              (.seq (.starCls wsCls)
                (.seq moneyPrefixRE (.grp 2 numRE))))))))

/-- `(?:até|máximo)\s*(?:R\$\s*)?(\d+[.,]?\d*)`. -/
def pattern2 : RE :=
  .seq (.alt (.lit "até".data) (.lit "máximo".data))
    (.seq (.starCls wsCls) (.seq moneyPrefixRE (.grp 1 numRE)))

/-- `(?:acima de|mínimo)\s*(?:R\$\s*)?(\d+[.,]?\d*)`. -/
def pattern3 : RE :=
  .seq (.alt (.lit "acima de".data) (.lit "mínimo".data))
    (.seq (.starCls wsCls) (.seq moneyPrefixRE (.grp 1 numRE)))

/-- `(?:R\$\s*)?(\d+[.,]?\d*\s*(?:mil|k))`. -/
def pattern4 : RE :=
  .seq moneyPrefixRE
    (.grp 1 (.seq numRE (.seq (.starCls wsCls) (.alt (.lit "mil".data) (.lit "k".data)))))

/-! ## `MessageHandler.extract_price_range` -/

/-- The cleaning applied to an interval capture:
`.replace('.', '').replace(',', '.')`. -/
def cleanInterval (g : List Char) : List Char :=
  (g.filter (fun c => !(c == '.'))).map (fun c => if c == ',' then '.' else c)

/-- The cleaning applied to a single-value capture:
`re.sub(r'[^\d.,]', '', s).replace(',', '.')`. -/
def cleanSingle (g : List Char) : List Char :=
  (g.filter (fun c => c.isDigit || c == '.' || c == ',')).map
    (fun c => if c == ',' then '.' else c)

/-- The interval pattern's branch of the extraction loop: both captures
parsed after removing thousands separators; a parse failure falls through
to the next pattern (the `except ValueError: continue`). -/
def tryInterval (t : List Char) : Option (PyFloat × PyFloat) := do
  let caps ← reSearch pattern1 t
  let g1 ← capGroup caps 1
  let g2 ← capGroup caps 2
  let lo ← parseFloatDec (cleanInterval g1)
  let hi ← parseFloatDec (cleanInterval g2)
  return (.val lo, .val hi)

/-- A single-capture pattern's branch of the extraction loop: the value is
multiplied by 1000 when the capture mentions `mil`/`k`, and the bound
direction is chosen by searching the whole text for `até`/`máximo`. -/
def trySingle (pat : RE) (t : List Char) : Option (PyFloat × PyFloat) := do
  let caps ← reSearch pat t
  let g1 ← capGroup caps 1
  let vs := pyLowerL g1
  let v0 ← parseFloatDec (cleanSingle vs)
  let value := if pyIn "mil".data vs || pyIn "k".data vs then v0.mul1000 else v0
  if pyIn "até".data t || pyIn "máximo".data t then
    return (.val ⟨0, 0⟩, .val value)
  else
    return (.val value, .inf)

/-- `MessageHandler.extract_price_range`: the four patterns are tried in
order; the first whose match also parses wins. -/
def extract_price_range (text : String) : Option (PyFloat × PyFloat) :=
  let t := text.data
  (tryInterval t).orElse fun _ =>
    (trySingle pattern2 t).orElse fun _ =>
      (trySingle pattern3 t).orElse fun _ =>
        trySingle pattern4 t

/-! ## Data model (`models.py` / the `cars` table) -/

/-- One row of the `cars` table (`Car` in `models.py`; a record of
`CarRepository.data`). -/
structure Car where
  id : String
  marca : String
  modelo : String
  ano : Int
  categoria : String
  combustivel : String
  quilometragem : Int
  transmissao : String
  qtt_portas : Int
  motor : Dec
  consumo_cidade : Dec
  consumo_estrada : Dec
  preco : Dec
  cor : String
deriving DecidableEq, Repr

/-- The accumulated filters of a conversation
(`ConversationManager.filters`): a dict whose possible keys are exactly
the ones the handlers write. -/
structure Filters where
  marca : Option String := none
  modelo : Option String := none
  preco_min : Option PyFloat := none
  preco_max : Option PyFloat := none
  cor : Option String := none
  combustivel : Option String := none
  transmissao : Option String := none
deriving DecidableEq, Repr

/-- The empty filter dict `{}`. -/
def emptyFilters : Filters := {}

/-! ## Repository helpers (`repository.py`) -/

/-- pandas `Series.str.contains(pat, case=False)` for the literal
patterns this program passes (vocabulary values contain no regex
metacharacters): case-insensitive substring containment. -/
def containsCI (field pat : String) : Bool :=
  pyIn (pyLowerL pat.data) (pyLowerL field.data)

/-- pandas `Series.unique()`: the distinct values in order of first
occurrence. -/
def uniqueFirst : List String → List String → List String
  | _, [] => []
  | seen, x :: xs =>
    if x ∈ seen then uniqueFirst seen xs else x :: uniqueFirst (x :: seen) xs

/-- Lexicographic comparison of strings by unicode scalar values —
Python's `<=` on `str`, as used by `sorted`. -/
def strLeB : List Char → List Char → Bool
  | [], _ => true
  | _ :: _, [] => false
  | a :: as, b :: bs =>
    if a.toNat < b.toNat then true
    else if b.toNat < a.toNat then false
    else strLeB as bs

/-- Insert into a sorted list (the building block of `sorted`). -/
def insertSorted (x : String) : List String → List String
  | [] => [x]
  | y :: ys => if strLeB x.data y.data then x :: y :: ys else y :: insertSorted x ys

/-- Python `sorted` on a list of strings (insertion sort; the inputs it
receives here are duplicate-free, so stability is irrelevant). -/
def pySort : List String → List String
  | [] => []
  | x :: xs => insertSorted x (pySort xs)

/-- `CarRepository.get_unique_brands`: the distinct `marca` values,
sorted alphabetically. -/
def get_unique_brands (data : List Car) : List String :=
  pySort (uniqueFirst [] (data.map (fun r => r.marca)))

/-- `CarRepository.get_models_for_brand`: the distinct `modelo` values of
the rows whose `marca` contains the brand (case-insensitively), sorted. -/
def get_models_for_brand (brand : String) (data : List Car) : List String :=
  pySort (uniqueFirst []
    ((data.filter (fun r => containsCI r.marca brand)).map (fun r => r.modelo)))

/-- `CarRepository.brand_exists`. -/
def brand_exists (brand : String) (data : List Car) : Bool :=
  data.any (fun r => containsCI r.marca brand)

/-- `CarRepository.model_exists`. -/
def model_exists (model brand : String) (data : List Car) : Bool :=
  data.any (fun r => containsCI r.marca brand && containsCI r.modelo model)

/-- The distinct `cor` values of the data set, in first-occurrence order
(`repo.data['cor'].dropna().unique().tolist()`; the column is
non-nullable, so `dropna` drops nothing). -/
def unique_colors (data : List Car) : List String :=
  uniqueFirst [] (data.map (fun r => r.cor))

/-- The distinct `combustivel` values, in first-occurrence order. -/
def unique_fuels (data : List Car) : List String :=
  uniqueFirst [] (data.map (fun r => r.combustivel))

/-- The distinct `transmissao` values, in first-occurrence order. -/
def unique_transmissions (data : List Car) : List String :=
  uniqueFirst [] (data.map (fun r => r.transmissao))

/-- `CarRepository.search_cars`: the cumulative filter chain followed by
`head(20)`. -/
def search_cars (filters : Filters) (data : List Car) : List Car :=
  let q0 := data
  let q1 := match filters.marca with
    | some m => q0.filter (fun (r : Car) => containsCI r.marca m)
    | none => q0
  let q2 := match filters.modelo with
    | some m => q1.filter (fun (r : Car) => containsCI r.modelo m)
    | none => q1
  let q3 := match filters.preco_min, filters.preco_max with
    | some lo, some hi =>
      q2.filter (fun (r : Car) => PyFloat.le lo (.val r.preco) && PyFloat.le (.val r.preco) hi)
    | _, _ => q2
  let q4 := match filters.cor with
    | some c => q3.filter (fun (r : Car) => containsCI r.cor c)
    | none => q3
  let q5 := match filters.combustivel with
    | some c => q4.filter (fun (r : Car) => containsCI r.combustivel c)
    | none => q4
  let q6 := match filters.transmissao with
    | some t => q5.filter (fun (r : Car) => containsCI r.transmissao t)
    | none => q5
  q6.take 20

/-! ## Slot extraction (`message_handler.py`) -/

/-- `MessageHandler.extract_brand`: first known brand (alphabetical
order) whose lower-cased value occurs in the normalized text. -/
def extract_brand (text : String) (data : List Car) : Option String :=
  (get_unique_brands data).find?
    (fun brand => pyIn (pyLowerS brand).data (normalize_text text).data)

/-- `MessageHandler.extract_model`: no match when the brand is falsy
(`if not brand: return None` — the empty string); otherwise the first
known model of the brand (alphabetical order) whose lower-cased value
occurs in the normalized text. -/
def extract_model (text brand : String) (data : List Car) : Option String :=
  if brand = "" then none
  else
    (get_models_for_brand brand data).find?
      (fun model => pyIn (pyLowerS model).data (normalize_text text).data)

/-- `MessageHandler.extract_color`: first known color (first-occurrence
order) whose lower-cased value occurs in the normalized text. -/
def extract_color (text : String) (data : List Car) : Option String :=
  (unique_colors data).find?
    (fun color => pyIn (pyLowerS color).data (normalize_text text).data)

/-- `MessageHandler.extract_fuel`: first known fuel (first-occurrence
order) whose normalized, lower-cased value occurs in the normalized
text. -/
def extract_fuel (text : String) (data : List Car) : Option String :=
  (unique_fuels data).find?
    (fun fuel => pyIn (normalize_text (pyLowerS fuel)).data (normalize_text text).data)

/-- `MessageHandler.extract_transmission`: first known transmission
(first-occurrence order) whose normalized value occurs in the normalized
text. -/
def extract_transmission (text : String) (data : List Car) : Option String :=
  (unique_transmissions data).find?
    (fun trans => pyIn (normalize_text trans).data (normalize_text text).data)

/-! ## Conversation state machine (`conversation.py`) -/

/-- Modelled from the spec: the module `shared.constants` is not part of
the provided sources; §4.1 of the spec only requires `CORES` to be a
fixed list of known colors whose first five are offered as suggestions.
No claim depends on the actual entries. -/
def CORES : List String := ["Preto", "Branco", "Prata", "Vermelho", "Azul", "Cinza"]

/-- Modelled from the spec: the module `shared.constants` is not part of
the provided sources; §4.1 of the spec only requires `COMBUSTIVEIS` to be
a fixed list of fuel types whose first three are offered as suggestions.
No claim depends on the actual entries. -/
def COMBUSTIVEIS : List String := ["Gasolina", "Etanol", "Diesel", "Flex"]

/-- Modelled from the spec: the module `shared.constants` is not part of
the provided sources; §4.1 of the spec only requires `TRANSMISSOES` to be
the full fixed list of transmission types, offered whole as suggestions.
No claim depends on the actual entries. -/
def TRANSMISSOES : List String := ["Manual", "Automática", "CVT"]

/-- `ConversationState`. -/
inductive ConversationState where
  | WELCOME
  | INIT
  | AWAITING_BRAND
  | AWAITING_MODEL
  | AWAITING_PRECO
  | AWAITING_COR
  | AWAITING_COMBUSTIVEL
  | AWAITING_TRANSMISSAO
  | READY_TO_SEARCH
deriving DecidableEq, Repr

/-- A response dict: `message` is always present, the remaining keys are
optional. -/
structure Response where
  message : String
  suggestions : Option (List String) := none
  results : Option (List Car) := none
  complete : Option Bool := none
  reset : Option Bool := none
deriving DecidableEq, Repr

/-- The four fixed price-bucket suggestions. -/
def priceSuggestions : List String :=
  ["Até 40.000", "Entre 40.000 e 60.000", "Entre 60.000 e 80.000", "Acima de 80.000"]

/-- Message of `_handle_init`. -/
def msgInit : String :=
  "Que legal! Vou te ajudar a encontrar o carro ideal. Qual marca você prefere?"

/-- Failure message of `_handle_brand_input`. -/
def msgBrandFail : String :=
  "Não consegui identificar a marca. Poderia informar qual marca você prefere?"

/-- Unknown-brand message of `_handle_brand_input`. -/
def msgBrandUnknown (brand : String) : String :=
  "Desculpe, não encontrei carros da marca " ++ brand ++ ". Alguma dessas marcas te interessa?"

/-- Success message of `_handle_brand_input`. -/
def msgBrandOk (brand : String) : String :=
  "Ótima escolha! Temos ótimos modelos da " ++ brand ++ ". Qual você prefere?"

/-- Failure message of `_handle_model_input`. -/
def msgModelFail : String :=
  "Não consegui identificar o modelo. Poderia informar qual modelo você deseja?"

/-- Unknown-model message of `_handle_model_input`. -/
def msgModelUnknown (model brand : String) : String :=
  "Desculpe, não encontrei o modelo " ++ model ++ " para " ++ brand ++ ". Algum desses te interessa?"

/-- Success message of `_handle_model_input`. -/
def msgModelOk (brand model : String) : String :=
  "Excelente escolha! O " ++ brand ++ " " ++ model ++
    " é um ótimo carro. Qual faixa de preço você está considerando?"

/-- Failure message of `_handle_preco_input`. -/
def msgPrecoFail : String :=
  "Não consegui entender a faixa de preço.Poderia informar novamente? (Ex: \x27até 50.000\x27 ou \x27entre 30.000 e 60.000\x27)"

/-- Success message of `_handle_preco_input`. -/
def msgPrecoOk : String :=
  "Ótimo! Agora me diga:\nQual cor você prefere para o seu carro?"

/-- Failure message of `_handle_cor_input`. -/
def msgCorFail : String :=
  "Não consegui identificar a cor. Poderia informar qual cor você prefere?"

/-- Success message of `_handle_cor_input`. -/
def msgCorOk (cor : String) : String :=
  "Boa escolha! " ++ cor ++ " é uma ótima cor. Qual tipo de combustível você prefere?"

/-- Failure message of `_handle_combustivel_input`. -/
def msgCombFail : String :=
  "Não consegui identificar o combustível. Poderia informar qual tipo você prefere?"

/-- Success message of `_handle_combustivel_input`. -/
def msgCombOk : String :=
  "Entendido! Só mais uma informação: Qual tipo de transmissão você deseja?"

/-- Failure message of `_handle_transmissao_input`. -/
def msgTransFail : String :=
  "Não consegui identificar a transmissão. Poderia informar qual tipo você prefere?"

/-- Empty-result message of `_handle_transmissao_input`. -/
def msgNoResults : String :=
  "Que pena. Infelizmente não consegui encontrar nenhum resultado com esses filtros. Você quer tentar novamente com diferentes informações?"

/-- Success message of `_handle_transmissao_input`. -/
def msgResults (n : Nat) : String :=
  "Ótimo! Encontrei " ++ toString n ++ " carros que combinam com você:\n"

/-- Fallback message of `process_message`. -/
def msgFallback : String := "Como posso te ajudar?"

/-- `_reset_conversation`: back to `AWAITING_BRAND` from
`AWAITING_TRANSMISSAO`, to `INIT` otherwise (the filters are cleared by
the caller of this function's result). -/
def resetConversation (s : ConversationState) : ConversationState :=
  if s = .AWAITING_TRANSMISSAO then .AWAITING_BRAND else .INIT

/-- `_handle_init`. -/
def handleInit (data : List Car) (f : Filters) :
    Response × ConversationState × Filters :=
  ({ message := msgInit, suggestions := some ((get_unique_brands data).take 5) },
   .AWAITING_BRAND, f)

/-- `_handle_brand_input`. -/
def handleBrand (data : List Car) (f : Filters) (text : String) :
    Response × ConversationState × Filters :=
  match extract_brand text data with
  | none =>
    ({ message := msgBrandFail, suggestions := some ((get_unique_brands data).take 5) },
     .AWAITING_BRAND, f)
  | some brand =>
    if brand_exists brand data then
      ({ message := msgBrandOk brand,
         suggestions := some ((get_models_for_brand brand data).take 5) },
       .AWAITING_MODEL, { f with marca := some brand })
    else
      ({ message := msgBrandUnknown brand,
         suggestions := some ((get_unique_brands data).take 5) },
       .AWAITING_BRAND, f)

/-- `_handle_model_input`.  The Python handler reads
`self.filters['marca']`; `none` models the `KeyError` raised when the
key is absent. -/
def handleModel (data : List Car) (f : Filters) (text : String) :
    Option (Response × ConversationState × Filters) :=
  match f.marca with
  | none => none
  | some brand =>
    match extract_model text brand data with
    | none =>
      some ({ message := msgModelFail,
              suggestions := some ((get_models_for_brand brand data).take 5) },
            .AWAITING_MODEL, f)
    | some model =>
      if model_exists model brand data then
        some ({ message := msgModelOk brand model, suggestions := some priceSuggestions },
              .AWAITING_PRECO, { f with modelo := some model })
      else
        some ({ message := msgModelUnknown model brand,
                suggestions := some ((get_models_for_brand brand data).take 5) },
              .AWAITING_MODEL, f)

/-- `_handle_preco_input`. -/
def handlePreco (f : Filters) (text : String) :
    Response × ConversationState × Filters :=
  match extract_price_range text with
  | none =>
    ({ message := msgPrecoFail, suggestions := some priceSuggestions },
     .AWAITING_PRECO, f)
  | some pr =>
    ({ message := msgPrecoOk, suggestions := some (CORES.take 5) },
     .AWAITING_COR, { f with preco_min := some pr.1, preco_max := some pr.2 })

/-- `_handle_cor_input`. -/
def handleCor (data : List Car) (f : Filters) (text : String) :
    Response × ConversationState × Filters :=
  match extract_color text data with
  | none =>
    ({ message := msgCorFail, suggestions := some (CORES.take 5) }, .AWAITING_COR, f)
  | some cor =>
    ({ message := msgCorOk cor, suggestions := some (COMBUSTIVEIS.take 3) },
     .AWAITING_COMBUSTIVEL, { f with cor := some cor })

/-- `_handle_combustivel_input`. -/
def handleCombustivel (data : List Car) (f : Filters) (text : String) :
    Response × ConversationState × Filters :=
  match extract_fuel text data with
  | none =>
    ({ message := msgCombFail, suggestions := some (COMBUSTIVEIS.take 3) },
     .AWAITING_COMBUSTIVEL, f)
  | some comb =>
    ({ message := msgCombOk, suggestions := some TRANSMISSOES },
     .AWAITING_TRANSMISSAO, { f with combustivel := some comb })

/-- `_handle_transmissao_input`: record the transmission, search with all
filters, reset (`AWAITING_TRANSMISSAO` → `AWAITING_BRAND`, filters
cleared), then report. -/
def handleTransmissao (data : List Car) (f : Filters) (text : String) :
    Response × ConversationState × Filters :=
  match extract_transmission text data with
  | none =>
    ({ message := msgTransFail, suggestions := some TRANSMISSOES },
     .AWAITING_TRANSMISSAO, f)
  | some tr =>
    let newF : Filters := { f with transmissao := some tr }
    let results := search_cars newF data
    let s2 := resetConversation .AWAITING_TRANSMISSAO
    if results.isEmpty then
      ({ message := msgNoResults, reset := some true }, s2, emptyFilters)
    else
      ({ message := msgResults results.length, results := some results,
         complete := some true }, s2, emptyFilters)

/-- `ConversationManager.process_message` as a state-passing step:
normalize the message, dispatch on the state, and return the response
together with the successor state and filters.  `none` models an
uncaught `KeyError` (only possible in `AWAITING_MODEL` with no brand
filter). -/
def stepM (data : List Car) (s : ConversationState) (f : Filters) (message : String) :
    Option (Response × ConversationState × Filters) :=
  let normalized := normalize_text message
  match s with
  | .INIT => some (handleInit data f)
  | .AWAITING_BRAND => some (handleBrand data f normalized)
  | .AWAITING_MODEL => handleModel data f normalized
  | .AWAITING_PRECO => some (handlePreco f normalized)
  | .AWAITING_COR => some (handleCor data f normalized)
  | .AWAITING_COMBUSTIVEL => some (handleCombustivel data f normalized)
  | .AWAITING_TRANSMISSAO => some (handleTransmissao data f normalized)
  | _ => some ({ message := msgFallback }, s, f)

/-- `ConversationManager.do_reset`: state `INIT`, empty filters. -/
def doReset (_p : ConversationState × Filters) : ConversationState × Filters :=
  (.INIT, emptyFilters)

/-- The configurations a single server process can reach: it starts at
`(INIT, {})` and evolves by `process_message` steps and out-of-band
`do_reset` directives. -/
inductive Reachable (data : List Car) : ConversationState × Filters → Prop where
  | init : Reachable data (.INIT, emptyFilters)
  | step {s f msg r s2 f2} : stepM data s f msg = some (r, s2, f2) →
      Reachable data (s, f) → Reachable data (s2, f2)
  | reset {p} : Reachable data p → Reachable data (doReset p)

/-! ## Concrete fixtures used by witnesses and counterexamples -/

/-- A one-car data set: a black manual flex Toyota Corolla. -/
def carToyota : Car :=
  { id := "1", marca := "Toyota", modelo := "Corolla", ano := 2020,
    categoria := "Sedan", combustivel := "Flex", quilometragem := 10000,
    transmissao := "Manual", qtt_portas := 4, motor := ⟨20, 1⟩,
    consumo_cidade := ⟨10, 0⟩, consumo_estrada := ⟨12, 0⟩,
    preco := ⟨90000, 0⟩, cor := "Preto" }

/-- The singleton record set used by most witnesses. -/
def recs1 : List Car := [carToyota]

/-- Twenty-one identical matching rows (for the truncation
counterexample). -/
def recs21 : List Car := List.replicate 21 carToyota

/-- Two brands whose dataset order and alphabetical order differ. -/
def recsBrands : List Car :=
  [{ carToyota with id := "1", marca := "Beta", modelo := "B1" },
   { carToyota with id := "2", marca := "Alfa", modelo := "A1" }]

/-- A data set whose only color carries a diacritic. -/
def recsColor : List Car := [{ carToyota with cor := "Âmbar" }]

/-- A filter state about to complete that matches `carToyota`. -/
def filtersHit : Filters :=
  { marca := some "Toyota", modelo := some "Corolla",
    preco_min := some (.val ⟨0, 0⟩), preco_max := some (.val ⟨100000, 0⟩),
    cor := some "Preto", combustivel := some "Flex" }

/-! ## Lemmas: table lookups and normalization (claim C7) -/

lemma lookupCh_of_find?_none {t : List (Char × Char)} {c : Char}
    (h : t.find? (fun p => p.1 == c) = none) : lookupCh t c = c := by
  simp [lookupCh, h]

lemma lookupCh_of_find?_some {t : List (Char × Char)} {c : Char} {p : Char × Char}
    (h : t.find? (fun p => p.1 == c) = some p) : lookupCh t c = p.2 := by
  simp [lookupCh, h]

lemma find?_table_some {t : List (Char × Char)} {c : Char} {p : Char × Char}
    (h : t.find? (fun q => q.1 == c) = some p) : p.1 = c ∧ p ∈ t := by
  refine ⟨?_, List.mem_of_find?_eq_some h⟩
  have := List.find?_some h
  simpa using this

lemma unidec_table_vals_fixed :
    unidecodeTable.all (fun q => (unidecodeTable.find? (fun p => p.1 == q.2)).isNone) = true := by
  decide

lemma lower_table_vals_stable :
    pyLowerTable.all (fun p => pyLowerChar (unidecodeChar p.2) == unidecodeChar p.2) = true := by
  decide

lemma unidec_table_keys_or_vals_lower :
    unidecodeTable.all
      (fun q => !(pyLowerTable.find? (fun p => p.1 == q.1)).isNone
        || pyLowerChar q.2 == q.2) = true := by
  decide

lemma unidec_table_no_ws :
    unidecodeTable.all (fun p => !isWS p.1 && !isWS p.2) = true := by
  decide

lemma unidec_idem_char (c : Char) : unidecodeChar (unidecodeChar c) = unidecodeChar c := by
  cases h : unidecodeTable.find? (fun p => p.1 == c) with
  | none =>
    have hc : unidecodeChar c = c := lookupCh_of_find?_none h
    rw [hc, hc]
  | some p =>
    have hc : unidecodeChar c = p.2 := lookupCh_of_find?_some h
    have hpmem := (find?_table_some h).2
    have hnone := (List.all_eq_true.mp unidec_table_vals_fixed) p hpmem
    rw [hc]
    exact lookupCh_of_find?_none (Option.isNone_iff_eq_none.mp (by simpa using hnone))

lemma unidecodeChar_of_none {c : Char}
    (h : unidecodeTable.find? (fun p => p.1 == c) = none) : unidecodeChar c = c :=
  lookupCh_of_find?_none h

lemma unidecodeChar_of_some {c : Char} {p : Char × Char}
    (h : unidecodeTable.find? (fun p => p.1 == c) = some p) : unidecodeChar c = p.2 :=
  lookupCh_of_find?_some h

lemma pyLowerChar_of_none {c : Char}
    (h : pyLowerTable.find? (fun p => p.1 == c) = none) : pyLowerChar c = c :=
  lookupCh_of_find?_none h

lemma pyLowerChar_of_some {c : Char} {p : Char × Char}
    (h : pyLowerTable.find? (fun p => p.1 == c) = some p) : pyLowerChar c = p.2 :=
  lookupCh_of_find?_some h

lemma unidec_ws_char (c : Char) : isWS (unidecodeChar c) = isWS c := by
  cases h : unidecodeTable.find? (fun p => p.1 == c) with
  | none => rw [unidecodeChar_of_none h]
  | some p =>
    obtain ⟨hk, hmem⟩ := find?_table_some h
    have hws := (List.all_eq_true.mp unidec_table_no_ws) p hmem
    rw [unidecodeChar_of_some h]
    have h1 : isWS p.1 = false := by
      cases hb : isWS p.1 <;> simp [hb] at hws ⊢
    have h2 : isWS p.2 = false := by
      cases hb : isWS p.2 <;> simp [hb] at hws ⊢
    rw [h2, ← hk, h1]

lemma lower_unidec_lower_char (c : Char) :
    pyLowerChar (unidecodeChar (pyLowerChar c)) = unidecodeChar (pyLowerChar c) := by
  cases h : pyLowerTable.find? (fun q => q.1 == c) with
  | some p =>
    have hc : pyLowerChar c = p.2 := pyLowerChar_of_some h
    have hmem := (find?_table_some h).2
    have := (List.all_eq_true.mp lower_table_vals_stable) p hmem
    rw [hc]
    simpa using this
  | none =>
    have hc : pyLowerChar c = c := pyLowerChar_of_none h
    rw [hc]
    cases hg : unidecodeTable.find? (fun q => q.1 == c) with
    | none =>
      rw [unidecodeChar_of_none hg]
      exact hc
    | some q =>
      obtain ⟨hk, hmem⟩ := find?_table_some hg
      have halt := (List.all_eq_true.mp unidec_table_keys_or_vals_lower) q hmem
      rw [unidecodeChar_of_some hg]
      rw [hk, h] at halt
      simpa using halt

lemma dropWhile_idem (p : Char → Bool) (l : List Char) :
    (l.dropWhile p).dropWhile p = l.dropWhile p := by
  induction l with
  | nil => rfl
  | cons a l ih =>
    by_cases h : p a
    · simp [List.dropWhile_cons, h, ih]
    · simp [List.dropWhile_cons, h]

lemma dropWhile_self_of_append {p : Char → Bool} {x t : List Char}
    (h : (x ++ t).dropWhile p = x ++ t) : x.dropWhile p = x := by
  cases x with
  | nil => rfl
  | cons a x' =>
    by_cases hp : p a
    · exfalso
      rw [List.cons_append, List.dropWhile_cons, if_pos hp] at h
      have hle := (List.dropWhile_sublist p (l := x' ++ t)).length_le
      rw [h] at hle
      simp at hle
    · simp [List.dropWhile_cons, hp]

lemma pyStrip_dropWhile (y : List Char) : (pyStrip y).dropWhile isWS = pyStrip y := by
  have hu : (y.dropWhile isWS).dropWhile isWS = y.dropWhile isWS := dropWhile_idem _ _
  obtain ⟨s, hs⟩ := List.dropWhile_suffix (l := (y.dropWhile isWS).reverse) isWS
  have hdecomp : y.dropWhile isWS = pyStrip y ++ s.reverse := by
    have := congrArg List.reverse hs
    simpa [pyStrip, List.reverse_append] using this.symm
  exact dropWhile_self_of_append (x := pyStrip y) (t := s.reverse) (by rw [← hdecomp]; exact hu)

lemma pyStrip_idem (l : List Char) : pyStrip (pyStrip l) = pyStrip l := by
  show (((pyStrip l).dropWhile isWS).reverse.dropWhile isWS).reverse = pyStrip l
  rw [pyStrip_dropWhile l]
  rw [show (pyStrip l).reverse = (l.dropWhile isWS).reverse.dropWhile isWS from by
    simp [pyStrip]]
  rw [dropWhile_idem]
  simp [pyStrip]

lemma pyStrip_map {f : Char → Char} (hf : ∀ c, isWS (f c) = isWS c) (l : List Char) :
    pyStrip (l.map f) = (pyStrip l).map f := by
  have hp : (isWS ∘ f) = isWS := funext hf
  have hdw : ∀ m : List Char, (m.map f).dropWhile isWS = (m.dropWhile isWS).map f := by
    intro m
    rw [List.dropWhile_map, hp]
  simp only [pyStrip, hdw, ← List.map_reverse, hdw]

lemma mem_pyStrip {a : Char} {l : List Char} (h : a ∈ pyStrip l) : a ∈ l := by
  simp only [pyStrip, List.mem_reverse] at h
  have h1 := (List.dropWhile_sublist (l := (l.dropWhile isWS).reverse) isWS).mem h
  rw [List.mem_reverse] at h1
  exact (List.dropWhile_sublist (l := l) isWS).mem h1

lemma normalizeChars_idem (l : List Char) :
    normalizeChars (normalizeChars l) = normalizeChars l := by
  have h1 : ((pyStrip (l.map pyLowerChar)).map unidecodeChar).map pyLowerChar
      = (pyStrip (l.map pyLowerChar)).map unidecodeChar := by
    rw [List.map_map]
    apply List.map_congr_left
    intro a ha
    obtain ⟨b, _, rfl⟩ := List.mem_map.mp (mem_pyStrip ha)
    exact lower_unidec_lower_char b
  have h2 : pyStrip ((pyStrip (l.map pyLowerChar)).map unidecodeChar)
      = (pyStrip (l.map pyLowerChar)).map unidecodeChar := by
    rw [pyStrip_map unidec_ws_char, pyStrip_idem]
  have h3 : ((pyStrip (l.map pyLowerChar)).map unidecodeChar).map unidecodeChar
      = (pyStrip (l.map pyLowerChar)).map unidecodeChar := by
    rw [List.map_map]
    apply List.map_congr_left
    intro a _
    exact unidec_idem_char a
  show (pyStrip (((pyStrip (l.map pyLowerChar)).map unidecodeChar).map pyLowerChar)).map unidecodeChar
      = normalizeChars l
  rw [h1, h2, h3]
  rfl

/-! ## Lemmas: vocabulary lists and first-match extraction -/

lemma find?_eq_some_iff_append {α : Type} (p : α → Bool) (l : List α) (b : α) :
    l.find? p = some b ↔
      ∃ l1 l2, l = l1 ++ b :: l2 ∧ p b = true ∧ ∀ a ∈ l1, p a = false := by
  induction l with
  | nil =>
    simp only [List.find?]
    constructor
    · intro h; cases h
    · rintro ⟨l1, l2, h, -, -⟩
      exact absurd h (by simp)
  | cons x xs ih =>
    cases hx : p x with
    | true =>
      rw [List.find?_cons_of_pos _ hx]
      constructor
      · rintro h
        obtain rfl : x = b := by simpa using h
        exact ⟨[], xs, rfl, hx, by simp⟩
      · rintro ⟨l1, l2, heq, hb, hl1⟩
        cases l1 with
        | nil =>
          obtain rfl : x = b := by simpa using congrArg (fun l => l.head?) heq
          rfl
        | cons y l1' =>
          have hxy : y = x := by simpa using congrArg (fun l => l.head?) heq.symm
          have := hl1 y (by simp)
          rw [hxy, hx] at this
          cases this
    | false =>
      rw [List.find?_cons_of_neg _ (by simp [hx])]
      rw [ih]
      constructor
      · rintro ⟨l1, l2, heq, hb, hl1⟩
        refine ⟨x :: l1, l2, by simp [heq], hb, ?_⟩
        intro a ha
        rcases List.mem_cons.mp ha with rfl | ha
        · exact hx
        · exact hl1 a ha
      · rintro ⟨l1, l2, heq, hb, hl1⟩
        cases l1 with
        | nil =>
          obtain rfl : x = b := by simpa using congrArg (fun l => l.head?) heq
          rw [hx] at hb; cases hb
        | cons y l1' =>
          have hxy : y = x := by simpa using congrArg (fun l => l.head?) heq.symm
          refine ⟨l1', l2, ?_, hb, fun a ha => hl1 a (by simp [ha])⟩
          simpa using congrArg (fun l => l.tail) heq

lemma uniqueFirst_sublist (seen l : List String) :
    List.Sublist (uniqueFirst seen l) l := by
  induction l generalizing seen with
  | nil => simp [uniqueFirst]
  | cons x xs ih =>
    by_cases h : x ∈ seen
    · simp only [uniqueFirst, if_pos h]
      exact (ih seen).trans (List.sublist_cons_self x xs)
    · simp only [uniqueFirst, if_neg h]
      exact (ih (x :: seen)).cons₂ x

lemma mem_uniqueFirst {a : String} {seen l : List String}
    (h : a ∈ uniqueFirst seen l) : a ∈ l :=
  (uniqueFirst_sublist seen l).mem h

lemma mem_of_mem_uniqueFirst_nil {a : String} {l : List String} :
    a ∈ l → a ∉ [] → True := fun _ _ => trivial

lemma uniqueFirst_complete {a : String} {seen l : List String}
    (hl : a ∈ l) (hs : a ∉ seen) : a ∈ uniqueFirst seen l := by
  induction l generalizing seen with
  | nil => cases hl
  | cons x xs ih =>
    by_cases hx : x ∈ seen
    · simp only [uniqueFirst, if_pos hx]
      rcases List.mem_cons.mp hl with rfl | hl'
      · exact absurd hx hs
      · exact ih hl' hs
    · simp only [uniqueFirst, if_neg hx]
      rcases List.mem_cons.mp hl with rfl | hl'
      · exact List.mem_cons_self a _
      · by_cases hax : a = x
        · subst hax; exact List.mem_cons_self a _
        · exact List.mem_cons_of_mem x (ih hl' (by simp [hs, hax]))

lemma strLeB_total (a b : List Char) : strLeB a b = true ∨ strLeB b a = true := by
  induction a generalizing b with
  | nil => left; rfl
  | cons x xs ih =>
    cases b with
    | nil => right; rfl
    | cons y ys =>
      by_cases h1 : x.toNat < y.toNat
      · left; simp [strLeB, h1]
      · by_cases h2 : y.toNat < x.toNat
        · right; simp [strLeB, h2]
        · rcases ih ys with h | h
          · left; simp [strLeB, h1, h2, h]
          · right; simp [strLeB, h1, h2, h]

lemma strLeB_trans {a b c : List Char} (h1 : strLeB a b = true) (h2 : strLeB b c = true) :
    strLeB a c = true := by
  induction a generalizing b c with
  | nil => rfl
  | cons x xs ih =>
    cases b with
    | nil => exact absurd h1 (by simp [strLeB])
    | cons y ys =>
      cases c with
      | nil => exact absurd h2 (by simp [strLeB])
      | cons z zs =>
        have H1 : x.toNat < y.toNat ∨ (x.toNat = y.toNat ∧ strLeB xs ys = true) := by
          by_cases hxy : x.toNat < y.toNat
          · exact Or.inl hxy
          · by_cases hyx : y.toNat < x.toNat
            · simp only [strLeB, if_neg hxy, if_pos hyx] at h1
              exact Bool.noConfusion h1
            · refine Or.inr ⟨by omega, ?_⟩
              simpa only [strLeB, if_neg hxy, if_neg hyx] using h1
        have H2 : y.toNat < z.toNat ∨ (y.toNat = z.toNat ∧ strLeB ys zs = true) := by
          by_cases hyz : y.toNat < z.toNat
          · exact Or.inl hyz
          · by_cases hzy : z.toNat < y.toNat
            · simp only [strLeB, if_neg hyz, if_pos hzy] at h2
              exact Bool.noConfusion h2
            · refine Or.inr ⟨by omega, ?_⟩
              simpa only [strLeB, if_neg hyz, if_neg hzy] using h2
        rcases H1 with hxy | ⟨hxy, hxs⟩ <;> rcases H2 with hyz | ⟨hyz, hys⟩
        · simp only [strLeB, if_pos (by omega : x.toNat < z.toNat)]
        · simp only [strLeB, if_pos (by omega : x.toNat < z.toNat)]
        · simp only [strLeB, if_pos (by omega : x.toNat < z.toNat)]
        · simp only [strLeB, if_neg (by omega : ¬x.toNat < z.toNat),
            if_neg (by omega : ¬z.toNat < x.toNat)]
          exact ih hxs hys

lemma mem_insertSorted {a x : String} {l : List String} :
    a ∈ insertSorted x l ↔ a = x ∨ a ∈ l := by
  induction l with
  | nil => simp [insertSorted]
  | cons y ys ih =>
    by_cases h : strLeB x.data y.data
    · simp [insertSorted, h]
    · simp only [insertSorted, if_neg h, List.mem_cons, ih]
      tauto

lemma mem_pySort {a : String} {l : List String} : a ∈ pySort l ↔ a ∈ l := by
  induction l with
  | nil => simp [pySort]
  | cons x xs ih =>
    simp only [pySort, mem_insertSorted, List.mem_cons, ih]

lemma pairwise_insertSorted (x : String) (l : List String)
    (h : l.Pairwise (fun a b => strLeB a.data b.data = true)) :
    (insertSorted x l).Pairwise (fun a b => strLeB a.data b.data = true) := by
  induction l with
  | nil => simp [insertSorted]
  | cons y ys ih =>
    rcases List.pairwise_cons.mp h with ⟨hy, hys⟩
    by_cases hxy : strLeB x.data y.data
    · rw [insertSorted, if_pos hxy]
      refine List.Pairwise.cons ?_ h
      intro z hz
      rcases List.mem_cons.mp hz with rfl | hz'
      · exact hxy
      · exact strLeB_trans hxy (hy z hz')
    · rw [insertSorted, if_neg hxy]
      refine List.Pairwise.cons ?_ (ih hys)
      intro z hz
      rcases mem_insertSorted.mp hz with hzx | hz'
      · rcases strLeB_total x.data y.data with hx | hx
        · exact absurd hx hxy
        · rw [hzx]; exact hx
      · exact hy z hz'

lemma pairwise_pySort (l : List String) :
    (pySort l).Pairwise (fun a b => strLeB a.data b.data = true) := by
  induction l with
  | nil => simp [pySort]
  | cons x xs ih => exact pairwise_insertSorted x (pySort xs) ih

lemma pyIn_refl (l : List Char) : pyIn l l = true := by
  cases l with
  | nil => simp [pyIn, List.tails, List.isPrefixOf]
  | cons a as =>
    simp only [pyIn, List.tails, List.any_cons]
    have : (a :: as).isPrefixOf (a :: as) = true := by
      simp [List.isPrefixOf_iff_prefix]
    simp [this]

lemma extract_brand_mem {text b : String} {data : List Car}
    (h : extract_brand text data = some b) :
    b ∈ get_unique_brands data ∧ ∃ r ∈ data, r.marca = b := by
  have hmem := List.mem_of_find?_eq_some h
  refine ⟨hmem, ?_⟩
  have : b ∈ uniqueFirst [] (data.map (fun r => r.marca)) :=
    mem_pySort.mp hmem
  obtain ⟨r, hr, hrb⟩ := List.mem_map.mp (mem_uniqueFirst this)
  exact ⟨r, hr, hrb⟩

lemma extract_brand_exists {text b : String} {data : List Car}
    (h : extract_brand text data = some b) : brand_exists b data = true := by
  obtain ⟨-, r, hr, hrb⟩ := extract_brand_mem h
  apply List.any_eq_true.mpr
  refine ⟨r, hr, ?_⟩
  rw [hrb]
  exact pyIn_refl _

/-! ## Lemmas: search semantics (claims C4, C5) -/

/-- The record predicate as the spec states it: a conjunction in which
brand, model, color, fuel and transmission test case-insensitive
substring containment of the filter value in the record field, the price
is an inclusive range test applied only when both bounds are present,
and absent slots impose no constraint. -/
def claimMatches (f : Filters) : Car → Bool := fun r =>
  (match f.marca with | none => true | some v => containsCI r.marca v) &&
  ((match f.modelo with | none => true | some v => containsCI r.modelo v) &&
  ((match f.preco_min, f.preco_max with
    | some lo, some hi => PyFloat.le lo (.val r.preco) && PyFloat.le (.val r.preco) hi
    | _, _ => true) &&
  ((match f.cor with | none => true | some v => containsCI r.cor v) &&
  ((match f.combustivel with | none => true | some v => containsCI r.combustivel v) &&
  (match f.transmissao with | none => true | some v => containsCI r.transmissao v)))))

lemma filter_claimMatches (f : Filters) (data : List Car) :
    data.filter (claimMatches f) = data.filter (fun r => claimMatches f r) := rfl

lemma search_cars_eq_filter_take (f : Filters) (data : List Car) :
    search_cars f data = (data.filter (claimMatches f)).take 20 := by
  obtain ⟨ma, mo, pmin, pmax, co, cb, tr⟩ := f
  cases ma <;> cases mo <;> cases pmin <;> cases pmax <;> cases co <;> cases cb <;> cases tr <;>
    simp [search_cars, filter_claimMatches, claimMatches, List.filter_filter,
      Bool.and_assoc, Bool.and_comm, Bool.and_left_comm]

/-! ## Lemmas: reachable configurations of the state machine -/

/-- The slot names of a `FilterSpec`. -/
inductive Slot where
  | marca | modelo | precoMin | precoMax | cor | combustivel | transmissao
deriving DecidableEq, Repr

/-- Read one slot of the filters (string slots left, price slots right). -/
def getSlot (f : Filters) : Slot → Option (String ⊕ PyFloat)
  | .marca => f.marca.map Sum.inl
  | .modelo => f.modelo.map Sum.inl
  | .precoMin => f.preco_min.map Sum.inr
  | .precoMax => f.preco_max.map Sum.inr
  | .cor => f.cor.map Sum.inl
  | .combustivel => f.combustivel.map Sum.inl
  | .transmissao => f.transmissao.map Sum.inl

/-- Which filter slots are populated in each conversation state, along
the linear dialogue; `WELCOME` and `READY_TO_SEARCH` are never reached. -/
def filtersShape : ConversationState → Filters → Prop
  | .INIT, f => f = emptyFilters
  | .AWAITING_BRAND, f => f = emptyFilters
  | .AWAITING_MODEL, f =>
      f.marca.isSome = true ∧ f.modelo = none ∧ f.preco_min = none ∧
      f.preco_max = none ∧ f.cor = none ∧ f.combustivel = none ∧ f.transmissao = none
  | .AWAITING_PRECO, f =>
      f.marca.isSome = true ∧ f.modelo.isSome = true ∧ f.preco_min = none ∧
      f.preco_max = none ∧ f.cor = none ∧ f.combustivel = none ∧ f.transmissao = none
  | .AWAITING_COR, f =>
      f.marca.isSome = true ∧ f.modelo.isSome = true ∧ f.preco_min.isSome = true ∧
      f.preco_max.isSome = true ∧ f.cor = none ∧ f.combustivel = none ∧ f.transmissao = none
  | .AWAITING_COMBUSTIVEL, f =>
      f.marca.isSome = true ∧ f.modelo.isSome = true ∧ f.preco_min.isSome = true ∧
      f.preco_max.isSome = true ∧ f.cor.isSome = true ∧ f.combustivel = none ∧
      f.transmissao = none
  | .AWAITING_TRANSMISSAO, f =>
      f.marca.isSome = true ∧ f.modelo.isSome = true ∧ f.preco_min.isSome = true ∧
      f.preco_max.isSome = true ∧ f.cor.isSome = true ∧ f.combustivel.isSome = true ∧
      f.transmissao = none
  | .WELCOME, _ => False
  | .READY_TO_SEARCH, _ => False

lemma step_filtersShape {data : List Car} {s : ConversationState} {f : Filters}
    {msg : String} {r : Response} {s2 : ConversationState} {f2 : Filters}
    (hf : filtersShape s f) (h : stepM data s f msg = some (r, s2, f2)) :
    filtersShape s2 f2 := by
  cases s with
  | WELCOME => exact hf.elim
  | READY_TO_SEARCH => exact hf.elim
  | INIT =>
    simp only [stepM, handleInit, Option.some.injEq, Prod.mk.injEq] at h
    obtain ⟨-, rfl, rfl⟩ := h
    exact hf
  | AWAITING_BRAND =>
    rcases hcb : extract_brand (normalize_text msg) data with - | b
    · simp only [stepM, handleBrand, hcb, Option.some.injEq, Prod.mk.injEq] at h
      obtain ⟨-, rfl, rfl⟩ := h
      exact hf
    · by_cases hex : brand_exists b data
      · simp only [stepM, handleBrand, hcb, hex, if_true, Option.some.injEq,
          Prod.mk.injEq] at h
        obtain ⟨-, rfl, rfl⟩ := h
        rw [hf]
        exact ⟨rfl, rfl, rfl, rfl, rfl, rfl, rfl⟩
      · simp only [stepM, handleBrand, hcb, hex, if_false, Option.some.injEq,
          Prod.mk.injEq] at h
        obtain ⟨-, rfl, rfl⟩ := h
        exact hf
  | AWAITING_MODEL =>
    obtain ⟨b, hb⟩ := Option.isSome_iff_exists.mp hf.1
    rcases hcm : extract_model (normalize_text msg) b data with - | m
    · simp only [stepM, handleModel, hb, hcm, Option.some.injEq, Prod.mk.injEq] at h
      obtain ⟨-, rfl, rfl⟩ := h
      exact hf
    · by_cases hex : model_exists m b data
      · simp only [stepM, handleModel, hb, hcm, hex, if_true, Option.some.injEq,
          Prod.mk.injEq] at h
        obtain ⟨-, rfl, rfl⟩ := h
        refine ⟨by simpa using hf.1, rfl, ?_, ?_, ?_, ?_, ?_⟩ <;>
          simp [hf.2.2.1, hf.2.2.2.1, hf.2.2.2.2.1, hf.2.2.2.2.2.1, hf.2.2.2.2.2.2]
      · simp only [stepM, handleModel, hb, hcm, hex, if_false, Option.some.injEq,
          Prod.mk.injEq] at h
        obtain ⟨-, rfl, rfl⟩ := h
        exact hf
  | AWAITING_PRECO =>
    rcases hcp : extract_price_range (normalize_text msg) with - | pr
    · simp only [stepM, handlePreco, hcp, Option.some.injEq, Prod.mk.injEq] at h
      obtain ⟨-, rfl, rfl⟩ := h
      exact hf
    · simp only [stepM, handlePreco, hcp, Option.some.injEq, Prod.mk.injEq] at h
      obtain ⟨-, rfl, rfl⟩ := h
      refine ⟨by simpa using hf.1, by simpa using hf.2.1, rfl, rfl, ?_, ?_, ?_⟩ <;>
        simp [hf.2.2.2.2.1, hf.2.2.2.2.2.1, hf.2.2.2.2.2.2]
  | AWAITING_COR =>
    rcases hcc : extract_color (normalize_text msg) data with - | c
    · simp only [stepM, handleCor, hcc, Option.some.injEq, Prod.mk.injEq] at h
      obtain ⟨-, rfl, rfl⟩ := h
      exact hf
    · simp only [stepM, handleCor, hcc, Option.some.injEq, Prod.mk.injEq] at h
      obtain ⟨-, rfl, rfl⟩ := h
      exact ⟨by simpa using hf.1, by simpa using hf.2.1, by simpa using hf.2.2.1,
        by simpa using hf.2.2.2.1, rfl, by simpa using hf.2.2.2.2.2.1,
        by simpa using hf.2.2.2.2.2.2⟩
  | AWAITING_COMBUSTIVEL =>
    rcases hcc : extract_fuel (normalize_text msg) data with - | c
    · simp only [stepM, handleCombustivel, hcc, Option.some.injEq, Prod.mk.injEq] at h
      obtain ⟨-, rfl, rfl⟩ := h
      exact hf
    · simp only [stepM, handleCombustivel, hcc, Option.some.injEq, Prod.mk.injEq] at h
      obtain ⟨-, rfl, rfl⟩ := h
      exact ⟨by simpa using hf.1, by simpa using hf.2.1, by simpa using hf.2.2.1,
        by simpa using hf.2.2.2.1, by simpa using hf.2.2.2.2.1, rfl,
        by simpa using hf.2.2.2.2.2.2⟩
  | AWAITING_TRANSMISSAO =>
    rcases hct : extract_transmission (normalize_text msg) data with - | t
    · simp only [stepM, handleTransmissao, hct, Option.some.injEq, Prod.mk.injEq] at h
      obtain ⟨-, rfl, rfl⟩ := h
      exact hf
    · by_cases hres : (search_cars { f with transmissao := some t } data).isEmpty
      · simp only [stepM, handleTransmissao, hct, hres, if_true, Option.some.injEq,
          Prod.mk.injEq, resetConversation, if_pos rfl] at h
        obtain ⟨-, rfl, rfl⟩ := h
        exact rfl
      · simp only [stepM, handleTransmissao, hct, hres, if_false, Option.some.injEq,
          Prod.mk.injEq, resetConversation, if_pos rfl] at h
        obtain ⟨-, rfl, rfl⟩ := h
        exact rfl

lemma reachable_filtersShape {data : List Car} {p : ConversationState × Filters}
    (h : Reachable data p) : filtersShape p.1 p.2 := by
  induction h with
  | init => exact rfl
  | step hs _ ih => exact step_filtersShape ih hs
  | reset _ _ => exact rfl

lemma step_preserves_slots {data : List Car} {s : ConversationState} {f : Filters}
    {msg : String} {r : Response} {s2 : ConversationState} {f2 : Filters}
    (hf : filtersShape s f) (h : stepM data s f msg = some (r, s2, f2))
    (k : Slot) (v : String ⊕ PyFloat) (hv : getSlot f k = some v) :
    getSlot f2 k = some v ∨ f2 = emptyFilters := by
  cases s with
  | WELCOME => exact hf.elim
  | READY_TO_SEARCH => exact hf.elim
  | INIT =>
    simp only [stepM, handleInit, Option.some.injEq, Prod.mk.injEq] at h
    obtain ⟨-, rfl, rfl⟩ := h
    exact Or.inl hv
  | AWAITING_BRAND =>
    rcases hcb : extract_brand (normalize_text msg) data with - | b
    · simp only [stepM, handleBrand, hcb, Option.some.injEq, Prod.mk.injEq] at h
      obtain ⟨-, rfl, rfl⟩ := h
      exact Or.inl hv
    · by_cases hex : brand_exists b data
      · rw [hf] at hv
        cases k <;> simp [getSlot, emptyFilters] at hv
      · simp only [stepM, handleBrand, hcb, hex, if_false, Option.some.injEq,
          Prod.mk.injEq] at h
        obtain ⟨-, rfl, rfl⟩ := h
        exact Or.inl hv
  | AWAITING_MODEL =>
    obtain ⟨h1, h2, h3, h4, h5, h6, h7⟩ := hf
    obtain ⟨b, hb⟩ := Option.isSome_iff_exists.mp h1
    rcases hcm : extract_model (normalize_text msg) b data with - | m
    · simp only [stepM, handleModel, hb, hcm, Option.some.injEq, Prod.mk.injEq] at h
      obtain ⟨-, rfl, rfl⟩ := h
      exact Or.inl hv
    · by_cases hex : model_exists m b data
      · simp only [stepM, handleModel, hb, hcm, hex, if_true, Option.some.injEq,
          Prod.mk.injEq] at h
        obtain ⟨-, rfl, rfl⟩ := h
        cases k <;> simp_all [getSlot]
      · simp only [stepM, handleModel, hb, hcm, hex, if_false, Option.some.injEq,
          Prod.mk.injEq] at h
        obtain ⟨-, rfl, rfl⟩ := h
        exact Or.inl hv
  | AWAITING_PRECO =>
    obtain ⟨h1, h2, h3, h4, h5, h6, h7⟩ := hf
    rcases hcp : extract_price_range (normalize_text msg) with - | pr
    · simp only [stepM, handlePreco, hcp, Option.some.injEq, Prod.mk.injEq] at h
      obtain ⟨-, rfl, rfl⟩ := h
      exact Or.inl hv
    · simp only [stepM, handlePreco, hcp, Option.some.injEq, Prod.mk.injEq] at h
      obtain ⟨-, rfl, rfl⟩ := h
      cases k <;> simp_all [getSlot]
  | AWAITING_COR =>
    obtain ⟨h1, h2, h3, h4, h5, h6, h7⟩ := hf
    rcases hcc : extract_color (normalize_text msg) data with - | c
    · simp only [stepM, handleCor, hcc, Option.some.injEq, Prod.mk.injEq] at h
      obtain ⟨-, rfl, rfl⟩ := h
      exact Or.inl hv
    · simp only [stepM, handleCor, hcc, Option.some.injEq, Prod.mk.injEq] at h
      obtain ⟨-, rfl, rfl⟩ := h
      cases k <;> simp_all [getSlot]
  | AWAITING_COMBUSTIVEL =>
    obtain ⟨h1, h2, h3, h4, h5, h6, h7⟩ := hf
    rcases hcc : extract_fuel (normalize_text msg) data with - | c
    · simp only [stepM, handleCombustivel, hcc, Option.some.injEq, Prod.mk.injEq] at h
      obtain ⟨-, rfl, rfl⟩ := h
      exact Or.inl hv
    · simp only [stepM, handleCombustivel, hcc, Option.some.injEq, Prod.mk.injEq] at h
      obtain ⟨-, rfl, rfl⟩ := h
      cases k <;> simp_all [getSlot]
  | AWAITING_TRANSMISSAO =>
    rcases hct : extract_transmission (normalize_text msg) data with - | t
    · simp only [stepM, handleTransmissao, hct, Option.some.injEq, Prod.mk.injEq] at h
      obtain ⟨-, rfl, rfl⟩ := h
      exact Or.inl hv
    · by_cases hres : (search_cars { f with transmissao := some t } data).isEmpty
      · simp only [stepM, handleTransmissao, hct, hres, if_true, Option.some.injEq,
          Prod.mk.injEq, resetConversation, if_pos rfl] at h
        obtain ⟨-, rfl, rfl⟩ := h
        exact Or.inr rfl
      · simp only [stepM, handleTransmissao, hct, hres, if_false, Option.some.injEq,
          Prod.mk.injEq, resetConversation, if_pos rfl] at h
        obtain ⟨-, rfl, rfl⟩ := h
        exact Or.inr rfl

lemma step_isSome {data : List Car} {s : ConversationState} {f : Filters}
    (hf : filtersShape s f) (msg : String) : (stepM data s f msg).isSome = true := by
  cases s with
  | WELCOME => exact hf.elim
  | READY_TO_SEARCH => exact hf.elim
  | INIT => rfl
  | AWAITING_BRAND => rfl
  | AWAITING_MODEL =>
    obtain ⟨b, hb⟩ := Option.isSome_iff_exists.mp hf.1
    rcases hcm : extract_model (normalize_text msg) b data with - | m <;>
      simp [stepM, handleModel, hb, hcm] <;>
      by_cases hex : model_exists m b data <;> simp [hex]
  | AWAITING_PRECO => rfl
  | AWAITING_COR => rfl
  | AWAITING_COMBUSTIVEL => rfl
  | AWAITING_TRANSMISSAO => rfl

/-! ## Lemmas: failed extraction re-prompts (claim C9) -/

/-- The `Awaiting*` slot-collecting states. -/
def isAwaiting : ConversationState → Bool
  | .AWAITING_BRAND | .AWAITING_MODEL | .AWAITING_PRECO | .AWAITING_COR
  | .AWAITING_COMBUSTIVEL | .AWAITING_TRANSMISSAO => true
  | _ => false

/-- Extraction fails on the (already normalized) text in the given state:
no match, or — for brand and model — a match that is not in the
vocabulary scoped to the prior filters. -/
def failsAt (data : List Car) : ConversationState → Filters → String → Bool
  | .AWAITING_BRAND, _, t =>
    match extract_brand t data with
    | none => true
    | some b => !brand_exists b data
  | .AWAITING_MODEL, f, t =>
    match f.marca with
    | none => false
    | some brand =>
      match extract_model t brand data with
      | none => true
      | some m => !model_exists m brand data
  | .AWAITING_PRECO, _, t => (extract_price_range t).isNone
  | .AWAITING_COR, _, t => (extract_color t data).isNone
  | .AWAITING_COMBUSTIVEL, _, t => (extract_fuel t data).isNone
  | .AWAITING_TRANSMISSAO, _, t => (extract_transmission t data).isNone
  | _, _, _ => false

/-- The suggestion list that accompanied the prompt which introduced each
`Awaiting*` state (read off the success branch of the preceding
handler). -/
def introSuggestions (data : List Car) : ConversationState → Filters → Option (List String)
  | .AWAITING_BRAND, _ => some ((get_unique_brands data).take 5)
  | .AWAITING_MODEL, f =>
    (f.marca).map (fun brand => (get_models_for_brand brand data).take 5)
  | .AWAITING_PRECO, _ => some priceSuggestions
  | .AWAITING_COR, _ => some (CORES.take 5)
  | .AWAITING_COMBUSTIVEL, _ => some (COMBUSTIVEIS.take 3)
  | .AWAITING_TRANSMISSAO, _ => some TRANSMISSOES
  | _, _ => none

lemma step_on_failure {data : List Car} {s : ConversationState} {f : Filters}
    {msg : String} {r : Response} {s2 : ConversationState} {f2 : Filters}
    (hA : isAwaiting s = true)
    (hfail : failsAt data s f (normalize_text msg) = true)
    (h : stepM data s f msg = some (r, s2, f2)) :
    s2 = s ∧ f2 = f ∧ r.suggestions = introSuggestions data s f := by
  cases s with
  | WELCOME => cases hA
  | INIT => cases hA
  | READY_TO_SEARCH => cases hA
  | AWAITING_BRAND =>
    rcases hcb : extract_brand (normalize_text msg) data with - | b
    · simp only [stepM, handleBrand, hcb, Option.some.injEq, Prod.mk.injEq] at h
      obtain ⟨rfl, rfl, rfl⟩ := h
      exact ⟨rfl, rfl, rfl⟩
    · simp only [failsAt, hcb] at hfail
      have hex : brand_exists b data = false := by
        cases hb : brand_exists b data
        · rfl
        · rw [hb] at hfail; cases hfail
      simp only [stepM, handleBrand, hcb, hex, Bool.false_eq_true, if_false,
        Option.some.injEq, Prod.mk.injEq] at h
      obtain ⟨rfl, rfl, rfl⟩ := h
      exact ⟨rfl, rfl, rfl⟩
  | AWAITING_MODEL =>
    rcases hb : f.marca with - | brand
    · simp only [stepM, handleModel, hb] at h
      exact Option.noConfusion h
    · rcases hcm : extract_model (normalize_text msg) brand data with - | m
      · simp only [stepM, handleModel, hb, hcm, Option.some.injEq, Prod.mk.injEq] at h
        obtain ⟨rfl, rfl, rfl⟩ := h
        refine ⟨rfl, rfl, ?_⟩
        simp [introSuggestions, hb]
      · simp only [failsAt, hb, hcm] at hfail
        have hex : model_exists m brand data = false := by
          cases hbx : model_exists m brand data
          · rfl
          · rw [hbx] at hfail; cases hfail
        simp only [stepM, handleModel, hb, hcm, hex, Bool.false_eq_true, if_false,
          Option.some.injEq, Prod.mk.injEq] at h
        obtain ⟨rfl, rfl, rfl⟩ := h
        refine ⟨rfl, rfl, ?_⟩
        simp [introSuggestions, hb]
  | AWAITING_PRECO =>
    simp only [failsAt, Option.isNone_iff_eq_none] at hfail
    simp only [stepM, handlePreco, hfail, Option.some.injEq, Prod.mk.injEq] at h
    obtain ⟨rfl, rfl, rfl⟩ := h
    exact ⟨rfl, rfl, rfl⟩
  | AWAITING_COR =>
    simp only [failsAt, Option.isNone_iff_eq_none] at hfail
    simp only [stepM, handleCor, hfail, Option.some.injEq, Prod.mk.injEq] at h
    obtain ⟨rfl, rfl, rfl⟩ := h
    exact ⟨rfl, rfl, rfl⟩
  | AWAITING_COMBUSTIVEL =>
    simp only [failsAt, Option.isNone_iff_eq_none] at hfail
    simp only [stepM, handleCombustivel, hfail, Option.some.injEq, Prod.mk.injEq] at h
    obtain ⟨rfl, rfl, rfl⟩ := h
    exact ⟨rfl, rfl, rfl⟩
  | AWAITING_TRANSMISSAO =>
    simp only [failsAt, Option.isNone_iff_eq_none] at hfail
    simp only [stepM, handleTransmissao, hfail, Option.some.injEq, Prod.mk.injEq] at h
    obtain ⟨rfl, rfl, rfl⟩ := h
    exact ⟨rfl, rfl, rfl⟩

/-- Filters after choosing the brand "Toyota". -/
def filtersToyota : Filters := { marca := some "Toyota" }

/-- Filters after choosing brand and model. -/
def filtersToyotaCorolla : Filters := { marca := some "Toyota", modelo := some "Corolla" }

/-! ## Claim theorems -/

/-- C7: `normalize_text` is idempotent (`normalize(normalize(x)) =
normalize(x)` for every string), and case/diacritic-insensitive:
`normalize_text "SÃO" = normalize_text "sao"`. -/
theorem c7_normalize_idempotent_insensitive :
    (∀ s : String, normalize_text (normalize_text s) = normalize_text s) ∧
    normalize_text "SÃO" = normalize_text "sao" := by
  constructor
  · intro s
    show (⟨normalizeChars (normalizeChars s.data)⟩ : String) = ⟨normalizeChars s.data⟩
    rw [normalizeChars_idem]
  · decide

/-- C2 (code bug): the actual values of `extract_price_range` on the
spec's examples.  "até 50.000" yields an upper bound of 50.0 — the
single-value branch never strips the thousands separator, so "50.000"
parses as fifty — and "acima de 10 mil" yields a lower bound of 10.0,
because pattern 3 ("acima de X") fires before the "mil" pattern and its
capture excludes the suffix.  After the dialogue's normalization strips
the accent, "ate 50.000" matches no pattern at all (the patterns spell
"até"/"máximo"/"mínimo" with accents).  Only the "entre … e …" example
behaves as documented. -/
theorem c2_price_range_behavior :
    extract_price_range "até 50.000" = some (.val ⟨0, 0⟩, .val ⟨50000, 3⟩) ∧
    (Dec.toRat ⟨50000, 3⟩ = 50 ∧ (50 : ℚ) ≠ 50000) ∧
    extract_price_range "entre 30.000 e 60.000"
      = some (.val ⟨30000, 0⟩, .val ⟨60000, 0⟩) ∧
    extract_price_range "acima de 10 mil" = some (.val ⟨10, 0⟩, .inf) ∧
    extract_price_range (normalize_text "entre 30.000 e 60.000")
      = some (.val ⟨30000, 0⟩, .val ⟨60000, 0⟩) ∧
    extract_price_range (normalize_text "até 50.000") = none ∧
    extract_price_range (normalize_text "acima de 10 mil")
      = some (.val ⟨10, 0⟩, .inf) := by
  refine ⟨by decide, ⟨?_, by norm_num⟩, by decide, by decide, by decide, by decide, by decide⟩
  norm_num [Dec.toRat]

/-- C1 (counterexample): in the `Init` state `process_message` ignores
the text entirely: sending "Toyota" to a fresh manager yields the
brand prompt, state `AwaitingBrand` and an empty filter dict — not
`AwaitingModel` with `marca = "Toyota"`. -/
theorem c1_counterexample :
    (stepM recs1 .INIT emptyFilters "Toyota").map (fun x => (x.2.1, x.2.2.marca))
      = some (.AWAITING_BRAND, none) ∧
    ConversationState.AWAITING_BRAND ≠ ConversationState.AWAITING_MODEL :=
  ⟨by decide, by decide⟩

/-- C1 (amended): from `Init` the first message (whatever it is) only
elicits the brand prompt and moves to `AwaitingBrand`; sending "Toyota"
*then* — provided the extractor resolves it to the vocabulary brand
"Toyota" — records `marca = "Toyota"`, moves to `AwaitingModel`, and
returns the model suggestions for Toyota. -/
theorem c1_amended (data : List Car)
    (h : extract_brand (normalize_text "Toyota") data = some "Toyota") :
    (stepM data .INIT emptyFilters "Toyota").map (fun x => x.2)
      = some (.AWAITING_BRAND, emptyFilters) ∧
    stepM data .AWAITING_BRAND emptyFilters "Toyota"
      = some ({ message := msgBrandOk "Toyota",
                suggestions := some ((get_models_for_brand "Toyota" data).take 5) },
              .AWAITING_MODEL, { emptyFilters with marca := some "Toyota" }) := by
  refine ⟨rfl, ?_⟩
  have hex : brand_exists "Toyota" data = true := extract_brand_exists h
  simp only [stepM, handleBrand, h, hex, if_true]

/-- C1 (witness): the amended scenario evaluated on the one-Toyota data
set. -/
theorem c1_witness :
    extract_brand (normalize_text "Toyota") recs1 = some "Toyota" ∧
    ((stepM recs1 .INIT emptyFilters "Toyota").map (fun x => x.2)
        = some (.AWAITING_BRAND, emptyFilters) ∧
      stepM recs1 .AWAITING_BRAND emptyFilters "Toyota"
        = some ({ message := msgBrandOk "Toyota",
                  suggestions := some ((get_models_for_brand "Toyota" recs1).take 5) },
                .AWAITING_MODEL, { emptyFilters with marca := some "Toyota" })) :=
  ⟨by decide, c1_amended recs1 (by decide)⟩

/-- C4 (counterexample): with more than twenty matching rows the search
does not return all records satisfying the filter conjunction — it
truncates to the first twenty. -/
theorem c4_counterexample :
    search_cars emptyFilters recs21 ≠ recs21.filter (claimMatches emptyFilters) := by
  decide

/-- C4 (amended): the search returns exactly the **first at most 20**
records satisfying the conjunction of the present filters — substring
containment (case-insensitive) for the five string slots, the inclusive
price range only when both bounds are present, no constraint for absent
slots. -/
theorem c4_amended (f : Filters) (data : List Car) :
    search_cars f data = (data.filter (claimMatches f)).take 20 :=
  search_cars_eq_filter_take f data

/-- C5: the search result has length at most 20, is a subsequence of the
record set in original order, and consists of the first 20 records
satisfying the filter predicate. -/
theorem c5_search_capped_ordered (f : Filters) (data : List Car) :
    (search_cars f data).length ≤ 20 ∧
    List.Sublist (search_cars f data) data ∧
    search_cars f data = (data.filter (claimMatches f)).take 20 := by
  refine ⟨?_, ?_, search_cars_eq_filter_take f data⟩
  · rw [search_cars_eq_filter_take]
    exact List.length_take_le 20 _
  · rw [search_cars_eq_filter_take]
    exact (List.take_sublist 20 _).trans (List.filter_sublist data)

/-- The brand extractor as claim C6 words it (for comparison with the
code's `extract_brand`): candidates in the vocabulary's natural
(dataset, first-occurrence) order, each candidate normalized and
lower-cased, first containment match wins. -/
def claimBrandExtract (text : String) (data : List Car) : Option String :=
  (uniqueFirst [] (data.map (fun r => r.marca))).find?
    (fun brand => pyIn (normalize_text brand).data (normalize_text text).data)

lemma find?_characterization {α : Type} (p : α → Bool) (l : List α) :
    (∀ b, l.find? p = some b ↔
      ∃ l1 l2, l = l1 ++ b :: l2 ∧ p b = true ∧ ∀ a ∈ l1, p a = false) ∧
    (l.find? p = none ↔ ∀ a ∈ l, p a = false) := by
  constructor
  · intro b
    exact find?_eq_some_iff_append p l b
  · rw [List.find?_eq_none]
    simp

/-- The color extractor as claim C6 words it (for comparison with the
code's `extract_color`): candidates in the vocabulary's natural
(dataset, first-occurrence) order, each candidate normalized and
lower-cased, first containment match wins. -/
def claimColorExtract (text : String) (data : List Car) : Option String :=
  (uniqueFirst [] (data.map (fun r => r.cor))).find?
    (fun color => pyIn (normalize_text color).data (normalize_text text).data)

/-- C6 (counterexample): two divergences from the claim.  First, brand
candidates are tried in **alphabetical** order, not dataset order: on a
data set listing "Beta" before "Alfa", the input "beta alfa" extracts
"Alfa", while the claim's dataset-order extractor returns "Beta".
Second, the color candidate is only **lower-cased**, not normalized: on
a data set whose color is "Âmbar", the input "ambar" extracts nothing
(the candidate becomes "âmbar", which is no substring of the
diacritic-free normalized input), while the claim's normalized
extractor returns "Âmbar". -/
theorem c6_counterexample :
    (extract_brand "beta alfa" recsBrands = some "Alfa" ∧
      claimBrandExtract "beta alfa" recsBrands = some "Beta" ∧
      ("Alfa" : String) ≠ "Beta") ∧
    (extract_color "ambar" recsColor = none ∧
      claimColorExtract "ambar" recsColor = some "Âmbar") :=
  ⟨⟨by decide, by decide, by decide⟩, by decide, by decide⟩

/-- C6 (amended): every categorical extractor returns the first
candidate whose processed value is contained in the normalized input,
and no-match when none is contained (so no longest-match or
word-boundary preference) — but the candidate order is *alphabetically
sorted* for brand and model and first-occurrence (dataset) order for
color, fuel and transmission, and the candidate is processed by
lower-casing alone for brand, model and color, while fuel and
transmission candidates are additionally diacritic-normalized; the
model extractor additionally returns no-match when the given brand is
the empty string. -/
theorem c6_amended (text brand : String) (data : List Car) :
    ((∀ b, extract_brand text data = some b ↔
        ∃ l1 l2, get_unique_brands data = l1 ++ b :: l2 ∧
          pyIn (pyLowerS b).data (normalize_text text).data = true ∧
          ∀ a ∈ l1, pyIn (pyLowerS a).data (normalize_text text).data = false) ∧
      (extract_brand text data = none ↔
        ∀ a ∈ get_unique_brands data,
          pyIn (pyLowerS a).data (normalize_text text).data = false) ∧
      (get_unique_brands data).Pairwise (fun a b => strLeB a.data b.data = true)) ∧
    ((∀ m, extract_model text brand data = some m ↔
        brand ≠ "" ∧
          ∃ l1 l2, get_models_for_brand brand data = l1 ++ m :: l2 ∧
            pyIn (pyLowerS m).data (normalize_text text).data = true ∧
            ∀ a ∈ l1, pyIn (pyLowerS a).data (normalize_text text).data = false) ∧
      (get_models_for_brand brand data).Pairwise
        (fun a b => strLeB a.data b.data = true)) ∧
    ((∀ c, extract_color text data = some c ↔
        ∃ l1 l2, unique_colors data = l1 ++ c :: l2 ∧
          pyIn (pyLowerS c).data (normalize_text text).data = true ∧
          ∀ a ∈ l1, pyIn (pyLowerS a).data (normalize_text text).data = false) ∧
      List.Sublist (unique_colors data) (data.map (fun r => r.cor))) ∧
    ((∀ g, extract_fuel text data = some g ↔
        ∃ l1 l2, unique_fuels data = l1 ++ g :: l2 ∧
          pyIn (normalize_text (pyLowerS g)).data (normalize_text text).data = true ∧
          ∀ a ∈ l1,
            pyIn (normalize_text (pyLowerS a)).data (normalize_text text).data = false) ∧
      List.Sublist (unique_fuels data) (data.map (fun r => r.combustivel))) ∧
    ((∀ t, extract_transmission text data = some t ↔
        ∃ l1 l2, unique_transmissions data = l1 ++ t :: l2 ∧
          pyIn (normalize_text t).data (normalize_text text).data = true ∧
          ∀ a ∈ l1, pyIn (normalize_text a).data (normalize_text text).data = false) ∧
      List.Sublist (unique_transmissions data) (data.map (fun r => r.transmissao))) := by
  refine ⟨⟨?_, ?_, pairwise_pySort _⟩, ⟨?_, pairwise_pySort _⟩,
    ⟨?_, uniqueFirst_sublist _ _⟩, ⟨?_, uniqueFirst_sublist _ _⟩,
    ⟨?_, uniqueFirst_sublist _ _⟩⟩
  · exact (find?_characterization _ _).1
  · exact (find?_characterization _ _).2
  · intro m
    by_cases hb : brand = ""
    · subst hb
      simp [extract_model]
    · simp only [extract_model, if_neg hb]
      constructor
      · intro h
        exact ⟨hb, ((find?_characterization _ _).1 m).mp h⟩
      · rintro ⟨-, h⟩
        exact ((find?_characterization _ _).1 m).mpr h
  · exact (find?_characterization _ _).1
  · exact (find?_characterization _ _).1
  · exact (find?_characterization _ _).1

/-- C8: along any reachable dialogue, one `process_message` step never
changes a slot that is already set — either every set slot keeps its
value, or the step was the implicit post-search reset that clears the
whole filter dict; the explicit reset directive likewise only clears the
whole dict. -/
theorem c8_slots_never_overwritten {data : List Car} {s : ConversationState}
    {f : Filters} (hr : Reachable data (s, f)) {msg : String} {r : Response}
    {s2 : ConversationState} {f2 : Filters}
    (hs : stepM data s f msg = some (r, s2, f2)) :
    (∀ (k : Slot) (v : String ⊕ PyFloat), getSlot f k = some v →
      getSlot f2 k = some v ∨ f2 = emptyFilters) ∧
    (doReset (s, f)).2 = emptyFilters :=
  ⟨fun k v hv => step_preserves_slots (reachable_filtersShape hr) hs k v hv, rfl⟩

/-- C8 (witness): a reachable `AwaitingModel` configuration with
`marca = "Toyota"` set, stepped on "corolla". -/
theorem c8_witness :
    stepM recs1 .INIT emptyFilters "oi"
      = some ({ message := msgInit, suggestions := some ["Toyota"] },
              .AWAITING_BRAND, emptyFilters) ∧
    stepM recs1 .AWAITING_BRAND emptyFilters "toyota"
      = some ({ message := msgBrandOk "Toyota", suggestions := some ["Corolla"] },
              .AWAITING_MODEL, filtersToyota) ∧
    stepM recs1 .AWAITING_MODEL filtersToyota "corolla"
      = some ({ message := msgModelOk "Toyota" "Corolla",
                suggestions := some priceSuggestions },
              .AWAITING_PRECO, filtersToyotaCorolla) ∧
    ((∀ (k : Slot) (v : String ⊕ PyFloat), getSlot filtersToyota k = some v →
        getSlot filtersToyotaCorolla k = some v ∨ filtersToyotaCorolla = emptyFilters) ∧
      (doReset (.AWAITING_MODEL, filtersToyota)).2 = emptyFilters) :=
  have h1 : stepM recs1 .INIT emptyFilters "oi"
      = some ({ message := msgInit, suggestions := some ["Toyota"] },
              .AWAITING_BRAND, emptyFilters) := by decide
  have h2 : stepM recs1 .AWAITING_BRAND emptyFilters "toyota"
      = some ({ message := msgBrandOk "Toyota", suggestions := some ["Corolla"] },
              .AWAITING_MODEL, filtersToyota) := by decide
  have h3 : stepM recs1 .AWAITING_MODEL filtersToyota "corolla"
      = some ({ message := msgModelOk "Toyota" "Corolla",
                suggestions := some priceSuggestions },
              .AWAITING_PRECO, filtersToyotaCorolla) := by decide
  ⟨h1, h2, h3,
    c8_slots_never_overwritten
      (Reachable.step h2 (Reachable.step h1 Reachable.init)) h3⟩

/-- C9 (counterexample): on a failed extraction the machine does keep
its state, filters and suggestion set, but the re-emitted *prompt text*
is a slot-specific retry message, not the prompt that introduced the
slot: in `AwaitingBrand` the failure reply differs from the `Init`
prompt that introduced the brand slot. -/
theorem c9_counterexample :
    (stepM recs1 .INIT emptyFilters "oi").map
        (fun x => (x.1.message, x.1.suggestions)) = some (msgInit, some ["Toyota"]) ∧
    (stepM recs1 .AWAITING_BRAND emptyFilters "qq").map
        (fun x => (x.1.message, x.1.suggestions, x.2.1, x.2.2))
      = some (msgBrandFail, some ["Toyota"], .AWAITING_BRAND, emptyFilters) ∧
    msgBrandFail ≠ msgInit :=
  ⟨by decide, by decide, by decide⟩

/-- C9 (amended): in every `Awaiting*` state, when extraction fails on
the input (or, for brand and model, the match is not in the scoped
vocabulary), the state does not advance, the filters are unchanged, and
the reply carries the same suggestion set as the prompt that introduced
the slot (the reply's message text is a retry message). -/
theorem c9_failed_extraction_reprompts {data : List Car} {s : ConversationState}
    {f : Filters} {msg : String} {r : Response} {s2 : ConversationState} {f2 : Filters}
    (hA : isAwaiting s = true)
    (hfail : failsAt data s f (normalize_text msg) = true)
    (hs : stepM data s f msg = some (r, s2, f2)) :
    s2 = s ∧ f2 = f ∧ r.suggestions = introSuggestions data s f :=
  step_on_failure hA hfail hs

/-- C9 (witness): the failed brand extraction "qq" on the one-Toyota
data set. -/
theorem c9_witness :
    isAwaiting .AWAITING_BRAND = true ∧
    failsAt recs1 .AWAITING_BRAND emptyFilters (normalize_text "qq") = true ∧
    stepM recs1 .AWAITING_BRAND emptyFilters "qq"
      = some ({ message := msgBrandFail, suggestions := some ["Toyota"] },
              .AWAITING_BRAND, emptyFilters) ∧
    (ConversationState.AWAITING_BRAND = ConversationState.AWAITING_BRAND ∧
      emptyFilters = emptyFilters ∧
      (some ["Toyota"] : Option (List String))
        = introSuggestions recs1 .AWAITING_BRAND emptyFilters) :=
  have hA : isAwaiting .AWAITING_BRAND = true := by decide
  have hfail : failsAt recs1 .AWAITING_BRAND emptyFilters (normalize_text "qq") = true := by
    decide
  have hs : stepM recs1 .AWAITING_BRAND emptyFilters "qq"
      = some ({ message := msgBrandFail, suggestions := some ["Toyota"] },
              .AWAITING_BRAND, emptyFilters) := by decide
  ⟨hA, hfail, hs, c9_failed_extraction_reprompts hA hfail hs⟩

/-- C10: in every reachable configuration, being in `AwaitingModel`
implies the `marca` slot is present, and consequently `process_message`
never raises (the model handler's `filters['marca']` lookup always
succeeds). -/
theorem c10_model_lookup_safe {data : List Car} {s : ConversationState} {f : Filters}
    (hr : Reachable data (s, f)) :
    (s = .AWAITING_MODEL → f.marca.isSome = true) ∧
    ∀ msg, (stepM data s f msg).isSome = true := by
  have hf := reachable_filtersShape hr
  refine ⟨fun hm => ?_, fun msg => step_isSome hf msg⟩
  subst hm
  exact hf.1

/-- C10 (witness): the reachable `AwaitingModel` configuration reached
by two messages from the initial state. -/
theorem c10_witness :
    stepM recs1 .INIT emptyFilters "oi"
      = some ({ message := msgInit, suggestions := some ["Toyota"] },
              .AWAITING_BRAND, emptyFilters) ∧
    stepM recs1 .AWAITING_BRAND emptyFilters "toyota"
      = some ({ message := msgBrandOk "Toyota", suggestions := some ["Corolla"] },
              .AWAITING_MODEL, filtersToyota) ∧
    ((ConversationState.AWAITING_MODEL = ConversationState.AWAITING_MODEL →
        filtersToyota.marca.isSome = true) ∧
      ∀ msg, (stepM recs1 .AWAITING_MODEL filtersToyota msg).isSome = true) :=
  have h1 : stepM recs1 .INIT emptyFilters "oi"
      = some ({ message := msgInit, suggestions := some ["Toyota"] },
              .AWAITING_BRAND, emptyFilters) := by decide
  have h2 : stepM recs1 .AWAITING_BRAND emptyFilters "toyota"
      = some ({ message := msgBrandOk "Toyota", suggestions := some ["Corolla"] },
              .AWAITING_MODEL, filtersToyota) := by decide
  ⟨h1, h2,
    c10_model_lookup_safe (Reachable.step h2 (Reachable.step h1 Reachable.init))⟩
